import Mathlib

/-!
Verification of the `molecular` 3D physics engine (Go) against its
specification.  Floating-point numbers are modelled as real numbers; Go
`panic` is modelled by `Option`/`none`; the smallest positive representable
IEEE-754 double is modelled as the real constant `2 ^ (-1074)`.
All definitions below are direct translations of the Go source
(`vector.go`, `force.go`, `motion.go`, `engine.go`, `event.go`,
`object.go` and the gravity-wave file).
-/

open scoped Classical

noncomputable section

namespace Molecular

/-- The speed of light, `C = 299792458.0` (motion.go). -/
def Cc : ℝ := 299792458

/-- `cSq = C * C`, the squared speed of light used by `NewEngine`. -/
def cSq : ℝ := Cc * Cc

/-- The gravitational constant `G = 6.674e-11` (force.go). -/
def Gg : ℝ := 6.674e-11

/-- `math.SmallestNonzeroFloat64`, modelled as the real number `2 ^ (-1074)`. -/
def smallestNonzeroFloat64 : ℝ := (2 : ℝ) ^ (-1074 : ℤ)

/-- `defaultMinAcc = 1e-3` (engine.go). -/
def defaultMinAcc : ℝ := 1e-3

/-- `Vec3` (vector.go): a 3-vector of float64 components. -/
structure Vec3 where
  x : ℝ
  y : ℝ
  z : ℝ
deriving DecidableEq

/-- `ZeroVec` (vector.go). -/
def ZeroVec : Vec3 := ⟨0, 0, 0⟩

/-- `UnitX` (vector.go). -/
def UnitX : Vec3 := ⟨1, 0, 0⟩

/-- `UnitY` (vector.go). -/
def UnitY : Vec3 := ⟨0, 1, 0⟩

/-- `UnitZ` (vector.go). -/
def UnitZ : Vec3 := ⟨0, 0, 1⟩

namespace Vec3

/-- `Vec3.Added` (vector.go): componentwise sum. -/
def added (v u : Vec3) : Vec3 := ⟨v.x + u.x, v.y + u.y, v.z + u.z⟩

/-- `Vec3.Subbed` (vector.go): componentwise difference. -/
def subbed (v u : Vec3) : Vec3 := ⟨v.x - u.x, v.y - u.y, v.z - u.z⟩

/-- `Vec3.Negated` (vector.go). -/
def negated (v : Vec3) : Vec3 := ⟨-v.x, -v.y, -v.z⟩

/-- `Vec3.ScaledN` (vector.go): scalar multiple. -/
def scaledN (v : Vec3) (n : ℝ) : Vec3 := ⟨v.x * n, v.y * n, v.z * n⟩

/-- `Vec3.SqLen` (vector.go): squared length. -/
def sqLen (v : Vec3) : ℝ := v.x * v.x + v.y * v.y + v.z * v.z

/-- `Vec3.Len` (vector.go): `math.Sqrt(v.SqLen())`. -/
def len (v : Vec3) : ℝ := Real.sqrt v.sqLen

/-- `Vec3.Dot` (vector.go). -/
def dot (v u : Vec3) : ℝ := v.x * u.x + v.y * u.y + v.z * u.z

/-- Go's `math.Trunc`: round toward zero. -/
def goTrunc (t : ℝ) : ℝ := if 0 ≤ t then (⌊t⌋ : ℝ) else (⌈t⌉ : ℝ)

/-- Go's `math.Mod(x, y) = x - Trunc(x/y)*y` (result takes the sign of `x`). -/
def goMod (a b : ℝ) : ℝ := a - goTrunc (a / b) * b

/-- `Vec3.ModedN` / `Vec3.ModN` (vector.go): componentwise `math.Mod`. -/
def modN (v : Vec3) (n : ℝ) : Vec3 := ⟨goMod v.x n, goMod v.y n, goMod v.z n⟩

/-- `Vec3.RotatedX` (vector.go): rotation about the x-axis by `angle`,
with `s, c := math.Sincos(angle)`. -/
def rotatedX (v : Vec3) (angle : ℝ) : Vec3 :=
  let s := Real.sin angle
  let c := Real.cos angle
  ⟨v.x, v.y * c - v.z * s, v.y * s + v.z * c⟩

/-- `Vec3.RotatedY` (vector.go): `X: v.X*s + v.Z*c, Y: v.Y, Z: v.X*c - v.Z*s`. -/
def rotatedY (v : Vec3) (angle : ℝ) : Vec3 :=
  let s := Real.sin angle
  let c := Real.cos angle
  ⟨v.x * s + v.z * c, v.y, v.x * c - v.z * s⟩

/-- `Vec3.RotatedZ` (vector.go). -/
def rotatedZ (v : Vec3) (angle : ℝ) : Vec3 :=
  let s := Real.sin angle
  let c := Real.cos angle
  ⟨v.x * c - v.y * s, v.x * s + v.y * c, v.z⟩

/-- `Vec3.RotateX` (vector.go): the in-place variant; on values it computes
exactly the same components as `RotatedX`. -/
def rotateX (v : Vec3) (angle : ℝ) : Vec3 :=
  let s := Real.sin angle
  let c := Real.cos angle
  ⟨v.x, v.y * c - v.z * s, v.y * s + v.z * c⟩

/-- `Vec3.RotateY` (vector.go): in-place variant,
`v.X, v.Z = v.X*s+v.Z*c, v.X*c-v.Z*s`. -/
def rotateY (v : Vec3) (angle : ℝ) : Vec3 :=
  let s := Real.sin angle
  let c := Real.cos angle
  ⟨v.x * s + v.z * c, v.y, v.x * c - v.z * s⟩

/-- `Vec3.RotateZ` (vector.go): in-place variant. -/
def rotateZ (v : Vec3) (angle : ℝ) : Vec3 :=
  let s := Real.sin angle
  let c := Real.cos angle
  ⟨v.x * c - v.y * s, v.x * s + v.y * c, v.z⟩

end Vec3

/-- The 3×3 determinant of the linear map sending the unit basis vectors to
the given three columns. -/
def det3 (c1 c2 c3 : Vec3) : ℝ :=
  c1.x * (c2.y * c3.z - c3.y * c2.z)
  - c2.x * (c1.y * c3.z - c3.y * c1.z)
  + c3.x * (c1.y * c2.z - c2.y * c1.z)

/-- `GravityField` (force.go, final revision): a field snapshot with position,
mass, radius and the cached `radius²` and `1/radius³`. -/
structure GravityField where
  pos : Vec3
  mass : ℝ
  radius : ℝ
  rSq : ℝ
  rCube : ℝ

/-- `NewGravityField(pos, mass, radius)` (force.go): caches
`rSq = radius*radius` and `rCube = 1/(radius*radius*radius)`. -/
def NewGravityField (pos : Vec3) (mass radius : ℝ) : GravityField :=
  { pos := pos
    mass := mass
    radius := radius
    rSq := radius * radius
    rCube := 1 / (radius * radius * radius) }

/-- `GravityField.FieldAt(pos)` (force.go): acceleration at the query point
`pos` due to the field.  Zero at the field position; `G·m·rCube`-scaled
displacement inside `radius²`; inverse-square outside. -/
def GravityField.FieldAt (f : GravityField) (pos : Vec3) : Vec3 :=
  let acc := f.pos.subbed pos
  let lSq := acc.sqLen
  if lSq = 0 then ZeroVec
  else if lSq < f.rSq then acc.scaledN (Gg * f.mass * f.rCube)
  else
    let l := Real.sqrt lSq
    acc.scaledN (Gg * f.mass / (lSq * l))

/-- `gravityStatus` (force.go): a shared snapshot of a gravity field together
with the absolute position it was emitted from.  The reference count and pool
bookkeeping are concurrency artefacts with no effect on the computed values
and are not part of the state modelled here. -/
structure gravityStatus where
  f : GravityField
  pos : Vec3

/-- `gravityStatus.FieldAt(pos)` (force.go): `s.f.FieldAt(pos.Subbed(s.pos))`. -/
def gravityStatus.FieldAt (s : gravityStatus) (pos : Vec3) : Vec3 :=
  s.f.FieldAt (pos.subbed s.pos)

/-- `Config` (engine.go). -/
structure Config where
  MinSpeed : ℝ
  MaxSpeed : ℝ
  MinAccel : ℝ

/-- `Engine` (engine.go): the configuration and its cached squared forms.
The object map, event queues and locks are handled separately (objects are
passed explicitly to the functions that scan them). -/
structure Engine where
  cfg : Config
  minSpeedSq : ℝ
  maxSpeedSq : ℝ
  minAccelSq : ℝ

/-- `NewEngine(cfg)` (engine.go): `maxSpeedSq` is clamped to `cSq` when unset
or too large; `minAccel` defaults to `1e-3` when zero and its square is cached
(a negative `MinAccel` is stored unsquared, as in the source). -/
def NewEngine (cfg : Config) : Engine :=
  let maxSq0 := cfg.MaxSpeed * cfg.MaxSpeed
  let maxSpeedSq := if maxSq0 ≤ 0 ∨ maxSq0 > cSq then cSq else maxSq0
  let minSpeedSq := cfg.MinSpeed * cfg.MinSpeed
  if 0 < cfg.MinAccel then
    { cfg := cfg, minSpeedSq := minSpeedSq, maxSpeedSq := maxSpeedSq
      minAccelSq := cfg.MinAccel * cfg.MinAccel }
  else if cfg.MinAccel = 0 then
    { cfg := { cfg with MinAccel := defaultMinAcc }
      minSpeedSq := minSpeedSq, maxSpeedSq := maxSpeedSq
      minAccelSq := defaultMinAcc * defaultMinAcc }
  else
    { cfg := cfg, minSpeedSq := minSpeedSq, maxSpeedSq := maxSpeedSq
      minAccelSq := cfg.MinAccel }

/-- `Engine.ReLorentzFactor(speed)` (motion.go): the reciprocal Lorentz
factor of the uncapped revision, `√(1 − (speed/C)²)` with `1` at rest. -/
def ReLorentzFactor (speed : ℝ) : ℝ :=
  if speed = 0 then 1
  else
    let n := speed / Cc
    Real.sqrt (1 - n * n)

/-- Modelled from the spec: `Engine.ReLorentzFactorSq` is called from
`object.go` (`reLorentzFactor`, `AbsVelocity`, `AttachTo`) but its definition
is not among the provided sources; §4.D of the spec defines it as
`ReLor(v²) = √(1 − min(v², vmax²)/c²)`, clamped to the smallest positive
representable number when `v² ≥ c²`. -/
def Engine.ReLorentzFactorSq (e : Engine) (speedSq : ℝ) : ℝ :=
  if cSq ≤ speedSq then smallestNonzeroFloat64
  else Real.sqrt (1 - min speedSq e.maxSpeedSq / cSq)

/-- `Engine.ProperTime(t, speed)` (motion.go).  `none` models a panic.
`t = 0` short-circuits to `0` before the negativity checks; negative `t` or
`speed` panics; `speed ≥ C` yields the smallest positive float; otherwise
`t·ReLorentzFactor(speed)`, floored to the smallest positive float if zero. -/
def ProperTime (t speed : ℝ) : Option ℝ :=
  if t = 0 then some 0
  else if t < 0 then none
  else if speed < 0 then none
  else if Cc ≤ speed then some smallestNonzeroFloat64
  else
    let t2 := t * ReLorentzFactor speed
    if t2 = 0 then some smallestNonzeroFloat64 else some t2

/-- `Cube` (box file): an axis-aligned box with position and size. -/
structure Cube where
  P : Vec3
  S : Vec3

/-- `Cube.EndPos` (box file): `P + S`. -/
def Cube.EndPos (b : Cube) : Vec3 := b.P.added b.S

/-- `Cube.Center` (box file): `P + S/2`. -/
def Cube.Center (b : Cube) : Vec3 := b.P.added (b.S.scaledN 0.5)

/-- `Cube.Overlap(x)` (box file): the two boxes intersect, with inclusive
inequalities on every axis. -/
def Cube.Overlap (b x : Cube) : Bool :=
  let p1 := b.P
  let p2 := b.EndPos
  let q1 := x.P
  let q2 := x.EndPos
  let a1 := q1.subbed p1
  let a2 := p2.subbed q1
  let b1 := q2.subbed p1
  let b2 := p2.subbed q2
  decide (((a1.x ≥ 0 ∧ a2.x ≥ 0) ∨ (b1.x ≥ 0 ∧ b2.x ≥ 0)) ∧
          ((a1.y ≥ 0 ∧ a2.y ≥ 0) ∨ (b1.y ≥ 0 ∧ b2.y ≥ 0)) ∧
          ((a1.z ≥ 0 ∧ a2.z ≥ 0) ∨ (b1.z ≥ 0 ∧ b2.z ≥ 0)))

/-- `Cube.OverlapBox(x, area)` (box file): computes the intersection region
relative to `b` into `area`, axis by axis, returning early with `false` on
the first non-overlapping axis (so `area` may be partially written). -/
def Cube.OverlapBox (b x area : Cube) : Bool × Cube :=
  let p1 := b.P
  let p2 := b.EndPos
  let q1 := x.P
  let q2 := x.EndPos
  let a1 := q1.subbed p1
  let a2 := p2.subbed q1
  let b1 := q2.subbed p1
  let b2 := p2.subbed q2
  -- X axis
  if a1.x ≥ 0 ∧ a2.x ≥ 0 then
    let area := { area with
      P := { area.P with x := a1.x }
      S := { area.S with x := if b2.x ≥ 0 then x.S.x else a2.x } }
    -- Y axis
    if a1.y ≥ 0 ∧ a2.y ≥ 0 then
      let area := { area with
        P := { area.P with y := a1.y }
        S := { area.S with y := if b2.y ≥ 0 then x.S.y else a2.y } }
      -- Z axis
      if a1.z ≥ 0 ∧ a2.z ≥ 0 then
        (true, { area with
          P := { area.P with z := a1.z }
          S := { area.S with z := if b2.z ≥ 0 then x.S.z else a2.z } })
      else if b1.z ≥ 0 ∧ b2.z ≥ 0 then
        (true, { area with
          P := { area.P with z := 0 }
          S := { area.S with z := b1.z } })
      else (false, area)
    else if b1.y ≥ 0 ∧ b2.y ≥ 0 then
      let area := { area with
        P := { area.P with y := 0 }
        S := { area.S with y := b1.y } }
      if a1.z ≥ 0 ∧ a2.z ≥ 0 then
        (true, { area with
          P := { area.P with z := a1.z }
          S := { area.S with z := if b2.z ≥ 0 then x.S.z else a2.z } })
      else if b1.z ≥ 0 ∧ b2.z ≥ 0 then
        (true, { area with
          P := { area.P with z := 0 }
          S := { area.S with z := b1.z } })
      else (false, area)
    else (false, area)
  else if b1.x ≥ 0 ∧ b2.x ≥ 0 then
    let area := { area with
      P := { area.P with x := 0 }
      S := { area.S with x := b1.x } }
    if a1.y ≥ 0 ∧ a2.y ≥ 0 then
      let area := { area with
        P := { area.P with y := a1.y }
        S := { area.S with y := if b2.y ≥ 0 then x.S.y else a2.y } }
      if a1.z ≥ 0 ∧ a2.z ≥ 0 then
        (true, { area with
          P := { area.P with z := a1.z }
          S := { area.S with z := if b2.z ≥ 0 then x.S.z else a2.z } })
      else if b1.z ≥ 0 ∧ b2.z ≥ 0 then
        (true, { area with
          P := { area.P with z := 0 }
          S := { area.S with z := b1.z } })
      else (false, area)
    else if b1.y ≥ 0 ∧ b2.y ≥ 0 then
      let area := { area with
        P := { area.P with y := 0 }
        S := { area.S with y := b1.y } }
      if a1.z ≥ 0 ∧ a2.z ≥ 0 then
        (true, { area with
          P := { area.P with z := a1.z }
          S := { area.S with z := if b2.z ≥ 0 then x.S.z else a2.z } })
      else if b1.z ≥ 0 ∧ b2.z ≥ 0 then
        (true, { area with
          P := { area.P with z := 0 }
          S := { area.S with z := b1.z } })
      else (false, area)
    else (false, area)
  else (false, area)

/-- An engine object as seen by the spatial queries of part `engine_ring.go`:
its identity (modelling the `*Object` pointer) and its absolute position
(the value `Object.AbsPos()` returns during the event phase). -/
structure EngObj where
  id : Nat
  absPos : Vec3

/-- `Engine.appendObjsInsideRing(objs, pos, minR, maxR)`: appends every engine
object whose squared absolute distance `l` from `pos` satisfies
`minR² ≤ l ≤ maxR²`. -/
def appendObjsInsideRing (objs engineObjs : List EngObj) (pos : Vec3)
    (minR maxR : ℝ) : List EngObj :=
  let minR2 := minR * minR
  let maxR2 := maxR * maxR
  objs ++ engineObjs.filter fun o =>
    let l := (o.absPos.subbed pos).sqLen
    decide (minR2 ≤ l ∧ l ≤ maxR2)

/-- The `onBeforeTick` hook of an `eventWave`.  The source installs exactly
two values: `nil` (plain waves from `newEventWave`) and
`gravityEventBeforeTick` (gravity waves from `newGravityWave`). -/
inductive BeforeTickHook where
  | noHook
  | gravityHook
deriving DecidableEq

/-- `eventWave` (event.go).  The `on` effect callback is modelled by having
`Tick` return the list of receivers it is invoked on; `onRemove` only
releases the shared snapshot's reference count and is not part of the
modelled state. -/
structure EventWave where
  sender : Nat
  pos : Vec3
  alive : ℝ
  speed : ℝ
  radius : ℝ
  maxRadius : ℝ
  heavy : Bool
  onBeforeTick : BeforeTickHook
  delay : Int
  tick : Int
  skipped : ℝ

/-- `newEventWave(sender, pos, radius, on, heavy)` (event.go) on a freshly
allocated pool object (zero-valued `delay`, `tick`, `skipped`, no hooks):
`alive = 60*60`, `speed = C`, `radius = 0`, `maxRadius = radius`. -/
def newEventWave (sender : Nat) (pos : Vec3) (radius : ℝ) (heavy : Bool) :
    EventWave :=
  { sender := sender
    pos := pos
    alive := 60 * 60
    speed := Cc
    radius := 0
    maxRadius := radius
    heavy := heavy
    onBeforeTick := .noHook
    delay := 0
    tick := 0
    skipped := 0 }

/-- `maxR0 .. maxR8` (gravity-wave file): `(1 << (n*2)) * (C/100)`.
`maxRs` is the array of the first eight of them. -/
def maxR (n : Nat) : ℝ := ((1 <<< (2 * n) : ℕ) : ℝ) * (Cc / 100)

/-- `gravityEventBeforeTick(e)` (gravity-wave file): bump `delay` to
`1 << (2n)` according to the highest `maxR_n` threshold the radius has
crossed; never skips the tick (returns `false`). -/
def gravityEventBeforeTick (w : EventWave) : EventWave × Bool :=
  let w :=
    if w.radius > maxR 8 then { w with delay := ((1 <<< (8 * 2) : ℕ) : Int) }
    else if w.radius > maxR 7 then { w with delay := ((1 <<< (7 * 2) : ℕ) : Int) }
    else if w.radius > maxR 6 then { w with delay := ((1 <<< (6 * 2) : ℕ) : Int) }
    else if w.radius > maxR 5 then { w with delay := ((1 <<< (5 * 2) : ℕ) : Int) }
    else if w.radius > maxR 4 then { w with delay := ((1 <<< (4 * 2) : ℕ) : Int) }
    else if w.radius > maxR 3 then { w with delay := ((1 <<< (3 * 2) : ℕ) : Int) }
    else if w.radius > maxR 2 then { w with delay := ((1 <<< (2 * 2) : ℕ) : Int) }
    else if w.radius > maxR 1 then { w with delay := ((1 <<< (1 * 2) : ℕ) : Int) }
    else if w.radius > maxR 0 then { w with delay := ((1 <<< (0 * 2) : ℕ) : Int) }
    else w
  (w, false)

/-- Dispatch of the `onBeforeTick` function value stored in the wave. -/
def runBeforeTick : BeforeTickHook → EventWave → EventWave × Bool
  | .noHook, w => (w, false)
  | .gravityHook, w => gravityEventBeforeTick w

/-- The body of `eventWave.Tick` (event.go) after the delay block: decrement
`alive` (clipping `dt` so `alive` ends at zero), run `onBeforeTick`, grow the
radius by `rd = speed·dt` clamping at `maxRadius`, query the annulus between
the old radius and `radius + rd/2`, and invoke the effect on every returned
object other than the sender (returned as the second component). -/
def eventWaveTickMain (f : EventWave) (dt : ℝ) (engineObjs : List EngObj) :
    EventWave × List EngObj :=
  let alive1 := f.alive - dt
  let dt := if alive1 < 0 then dt + alive1 else dt
  let f := { f with alive := if alive1 < 0 then 0 else alive1 }
  let hooked := runBeforeTick f.onBeforeTick f
  let f := hooked.1
  if hooked.2 then (f, [])
  else
    let lastr := f.radius
    let rd := f.speed * dt
    let r1 := f.radius + rd
    let f :=
      if f.maxRadius ≥ 0 ∧ r1 ≥ f.maxRadius then
        { f with radius := f.maxRadius, alive := 0 }
      else { f with radius := r1 }
    let cache := appendObjsInsideRing [] engineObjs f.pos lastr (f.radius + rd / 2)
    (f, cache.filter fun o => o.id ≠ f.sender)

/-- `eventWave.Tick(dt, e)` (event.go): when `delay > 0` accumulate `skipped`
and return until `tick` reaches `delay`, then consume the accumulated
`skipped` as the effective `dt`. -/
def eventWaveTick (f : EventWave) (dt : ℝ) (engineObjs : List EngObj) :
    EventWave × List EngObj :=
  if f.delay > 0 then
    let f1 := { f with skipped := f.skipped + dt, tick := f.tick + 1 }
    if f1.tick < f1.delay then (f1, [])
    else eventWaveTickMain { f1 with skipped := 0, tick := 0 } f1.skipped engineObjs
  else eventWaveTickMain f dt engineObjs

/-- A sequence of `Tick` calls: each element is the `dt` of the call and the
engine's object list at that time. -/
def eventWaveTicks (w : EventWave) (seq : List (ℝ × List EngObj)) : EventWave :=
  seq.foldl (fun w p => (eventWaveTick w p.1 p.2).1) w

/-- The `life` loop of `newGravityWave` (gravity-wave file):
`for i := uint16(2); i != 0 && tick&(i-1) == 0; i <<= 2 { life++ }`,
with `uint16` overflow ending the loop after at most nine tests.  The first
argument is fuel strictly larger than the iteration count. -/
def gravityWaveLifeAux (tick : Nat) : Nat → Nat → Nat → Nat
  | 0, _, life => life
  | fuel + 1, i, life =>
    if i ≠ 0 ∧ tick &&& (i - 1) = 0 then
      gravityWaveLifeAux tick fuel ((i <<< 2) % 65536) (life + 1)
    else life

/-- The value of `life` computed by `newGravityWave` for an emission tick. -/
def gravityWaveLife (tick : Nat) : Nat := gravityWaveLifeAux tick 16 2 0

/-- `Engine.newGravityWave(sender, center, f, tick)` (gravity-wave file):
snapshot the field, derive `maxRadius = √(G/minAccel·mass)` when
`minAccel > 0` (else `-1`), truncate it to `maxRs[life]` when `life < 8`,
and build a heavy wave with the gravity pre-tick hook.  The deposit callback
and the `onRemove` reference-count release act on receiver state modelled in
`Obj`. -/
def Engine.newGravityWave (e : Engine) (sender : Nat) (center : Vec3)
    (f : GravityField) (tick : Nat) : EventWave × gravityStatus :=
  let g : gravityStatus := { f := f, pos := center }
  let maxRadius : ℝ := if e.cfg.MinAccel > 0 then Real.sqrt (Gg / e.cfg.MinAccel * f.mass) else -1
  let life := gravityWaveLife tick
  let maxRadius := if life < 8 then (if maxR life < maxRadius then maxR life else maxRadius) else maxRadius
  let w := newEventWave sender center maxRadius true
  ({ w with onBeforeTick := .gravityHook }, g)

/-- `numberOfTrailingZeros₂` on a `uint16` value: the number of consecutive
low-order zero bits (16 for `t = 0`). -/
def ntz16 (t : Nat) : Nat :=
  (List.range 16).countP fun k => t % 2 ^ (k + 1) == 0

/-- A `Block` (block.go) as read by `Object.tick`: the values its `Mass()`
and `Outline()` methods return during the tick (blocks are external tenant
plug-ins; `Tick(dt)` is an external effect with no engine-visible state). -/
structure Block where
  mass : ℝ
  outline : Cube

/-- One entry of the `passedGravity` map (object.go): the snapshot deposited
by a sender's gravity wave, together with the sender's absolute velocity
(the value `a.AbsVelocity()` returns during the tick). -/
structure GravEntry where
  sender : Nat
  otherAbsVel : Vec3
  g : gravityStatus

/-- `objStatus` (object.go): the per-object status record.  `children` and
`system` are not read by any function modelled here. -/
structure objStatus where
  pos : Vec3
  velocity : Vec3
  heading : Vec3
  headVel : Vec3
  gcenter : Vec3
  tickForce : Vec3
  mass : ℝ
  blocks : List Block
  gfield : Option GravityField
  passedGravity : List GravEntry

/-- The zero value of `objStatus`: the status of the immovable main anchor. -/
def objStatus.zero : objStatus :=
  { pos := ZeroVec, velocity := ZeroVec, heading := ZeroVec, headVel := ZeroVec
    gcenter := ZeroVec, tickForce := ZeroVec, mass := 0, blocks := []
    gfield := none, passedGravity := [] }

/-- `ObjType` (object.go). -/
inductive ObjType where
  | manMade
  | natural
  | living
deriving DecidableEq

/-- An `Object` (object.go) as read and written by its own `tick`: its
engine, type, current and next status, emission tick counter, and the chain
of its strict ancestors' current statuses (nearest first, the main anchor —
whose status is the zero value — excluded). -/
structure Obj where
  e : Engine
  typ : ObjType
  cur : objStatus
  next : objStatus
  anc : List objStatus
  gtick : Nat

/-- `Object.reLorentzFactor` (object.go) along an anchor chain: the main
anchor returns `1`, every other link multiplies by
`ReLorentzFactorSq(velocity.Len())` (the source passes the length, not the
squared length). -/
def chainReLor (e : Engine) : List objStatus → ℝ
  | [] => 1
  | st :: rest => e.ReLorentzFactorSq st.velocity.len * chainReLor e rest

/-- `o.reLorentzFactor()` for the object itself. -/
def Obj.reLorentzFactor (o : Obj) : ℝ := chainReLor o.e (o.cur :: o.anc)

/-- `o.anchor.ProperTime(dt) = dt / anchor.reLorentzFactor()` (object.go). -/
def Obj.anchorProperTime (o : Obj) (dt : ℝ) : ℝ := dt / chainReLor o.e o.anc

/-- `Object.AbsPos` (object.go): the straight sum of positions up the
anchor chain. -/
def Obj.absPos (o : Obj) : Vec3 :=
  o.anc.foldl (fun p st => p.added st.pos) o.cur.pos

/-- `Object.AbsVelocity` (object.go): walk the chain from self to the main
anchor, at each parent `m` computing
`v = v·ReLorentzFactorSq(m.velocity.SqLen()) + m.velocity` (the loop body
runs for every ancestor including the main anchor). -/
def Obj.absVelocity (o : Obj) : Vec3 :=
  (o.anc ++ [objStatus.zero]).foldl
    (fun v m => (v.scaledN (o.e.ReLorentzFactorSq m.velocity.sqLen)).added m.velocity)
    o.cur.velocity

/-- The block loop of `Object.tick` (object.go): accumulate total mass and
the incremental mass-weighted gravity center
(`gcenter += (c − gcenter)·m/mass` when the running mass is nonzero). -/
def blockStep (acc : ℝ × Vec3) (b : Block) : ℝ × Vec3 :=
  let m := b.mass
  let mass := acc.1 + m
  let c := b.outline.Center
  (mass, if mass = 0 then c else acc.2.added ((c.subbed acc.2).scaledN (m / mass)))

/-- State of the `passedGravity` loop in `Object.tick`. -/
structure GravLoopSt where
  smallestL : ℝ
  smallestO : Option GravEntry
  tickForce : Vec3
  kept : List GravEntry

/-- One iteration of the `passedGravity` loop of `Object.tick` (object.go):
track the sibling with the smallest squared relative velocity, and either
accumulate the snapshot's force contribution (when at least `minAccel²`)
or drop the entry from the map. -/
def gravStep (e : Engine) (v pos : Vec3) (factor : ℝ)
    (st : GravLoopSt) (ent : GravEntry) : GravLoopSt :=
  let l := (v.subbed ent.otherAbsVel).sqLen
  let st :=
    if st.smallestL > l then
      { st with smallestL := l, smallestO := some ent }
    else st
  let fv := ent.g.FieldAt pos
  if fv.sqLen ≥ e.minAccelSq then
    { st with tickForce := st.tickForce.added (fv.scaledN factor) }
  else
    { st with kept := st.kept.filter (fun x => x.sender ≠ ent.sender) }

/-- A gravity-change event queued at the end of `Object.tick`: the data
`newGravityWave` receives (`center`, the field snapshot, `o.gtick`). -/
structure GravityEmit where
  center : Vec3
  field : GravityField
  gtick : Nat

/-- `Object.tick(dt)` (object.go, final revision).  Returns the updated
object (current `tickForce`/`passedGravity`, the whole next status, and
`gtick`) together with the gravity-change event queued, if any.
The source's `if smallestO != nil { o.AttachTo(smallestO) }` branch is
unreachable — `smallestL` starts at `0` and squared lengths are never
smaller — see `gravityLoop_smallestO_none` below, so no re-parenting state
is needed here. -/
def Obj.tick (o : Obj) (dt : ℝ) : Obj × Option GravityEmit :=
  let rlf := o.reLorentzFactor
  let apt := o.anchorProperTime dt
  let pt0 := dt * rlf
  let pt := if pt0 ≤ 0 then smallestNonzeroFloat64 else pt0
  -- tick blocks: each `b.Tick(pt)` is an external effect; accumulate
  -- mass and gravity center
  let bl := o.cur.blocks.foldl blockStep (0, ZeroVec)
  let mass := bl.1
  let gcenter := bl.2
  -- apply the gravity
  let pos := o.absPos
  let factor := mass / rlf
  let v := o.absVelocity
  let gl := o.cur.passedGravity.foldl (gravStep o.e v pos factor)
    { smallestL := 0, smallestO := none, tickForce := ZeroVec
      kept := o.cur.passedGravity }
  let tickForce := gl.tickForce
  let nextVel :=
    if mass > 0 then o.next.velocity.added (tickForce.scaledN (pt / mass))
    else o.next.velocity
  let massLocal := if mass > 0 then mass else if mass < 0 then 0 else mass
  -- calculate the new position and angle: d = (vi + vf) / 2 * ∆t
  let vel := (o.cur.velocity.added nextVel).scaledN (apt / 2)
  let moved := vel.sqLen > o.e.minSpeedSq
  let nextPos := if moved then o.next.pos.added vel else o.next.pos
  let av := (o.cur.headVel.added o.next.headVel).scaledN (apt / 2)
  let nextHeading := (o.next.heading.added av).modN Real.pi
  -- queue gravity change event
  let center := o.absPos.added gcenter
  let base : objStatus :=
    { o.next with mass := mass, gcenter := gcenter, velocity := nextVel
                  pos := nextPos, heading := nextHeading }
  let cur' : objStatus := { o.cur with tickForce := tickForce, passedGravity := gl.kept }
  match o.next.gfield with
  | none =>
    ({ o with cur := cur', next := base }, none)
  | some gfield =>
    let lastNil := o.cur.gfield = none
    let gtick' := if lastNil then 0 else (o.gtick + 1) % 65536
    if o.typ = .manMade then
      if lastNil ∨ massLocal ≠ gfield.mass then
        let gfield' := { gfield with mass := massLocal }
        ({ o with cur := cur', gtick := gtick'
                  next := { base with gfield := some gfield' } },
         if massLocal > 0 then some ⟨center, gfield', gtick'⟩ else none)
      else
        ({ o with cur := cur', gtick := gtick'
                  next := { base with gfield := some gfield } }, none)
    else
      ({ o with cur := cur', gtick := gtick'
                next := { base with gfield := some gfield } },
       if lastNil ∨ moved then some ⟨center, gfield, gtick'⟩ else none)

/-- A concrete object, anchored to the main anchor, whose single block
reports mass `−1`. -/
def objNegMass : Obj :=
  { e := NewEngine ⟨0, 0, 0⟩
    typ := .natural
    cur := { objStatus.zero with
      blocks := [{ mass := -1, outline := { P := ZeroVec, S := ZeroVec } }] }
    next := objStatus.zero
    anc := []
    gtick := 0 }

/-- A concrete plain event wave whose growth is clipped by `maxRadius`
during the next tick: speed 1, radius 0, cap 1/2, ample alive time. -/
def waveClip : EventWave :=
  { sender := 0, pos := ZeroVec, alive := 100, speed := 1, radius := 0
    maxRadius := 1 / 2, heavy := false, onBeforeTick := .noHook
    delay := 0, tick := 0, skipped := 0 }

/-- A concrete plain event wave that is not clipped during the next tick:
speed 1, radius 0, cap 10. -/
def waveFree : EventWave :=
  { sender := 0, pos := ZeroVec, alive := 10, speed := 1, radius := 0
    maxRadius := 10, heavy := false, onBeforeTick := .noHook
    delay := 0, tick := 0, skipped := 0 }

/-- A concrete receiver at absolute distance 9/10 from the origin. -/
def recvA : EngObj := ⟨1, ⟨9 / 10, 0, 0⟩⟩

/-! ## Helper lemmas -/

theorem Cc_pos : 0 < Cc := by norm_num [Cc]

theorem cSq_pos : 0 < cSq := by
  have := Cc_pos
  unfold cSq
  positivity

theorem smallestNonzeroFloat64_pos : 0 < smallestNonzeroFloat64 := by
  unfold smallestNonzeroFloat64
  positivity

theorem Vec3.sqLen_nonneg (v : Vec3) : 0 ≤ v.sqLen := by
  unfold Vec3.sqLen
  nlinarith [mul_self_nonneg v.x, mul_self_nonneg v.y, mul_self_nonneg v.z]

theorem Vec3.sqLen_eq_zero_iff (v : Vec3) : v.sqLen = 0 ↔ v = ZeroVec := by
  unfold Vec3.sqLen ZeroVec
  constructor
  · intro h
    have hx : v.x = 0 := by nlinarith [mul_self_nonneg v.x, mul_self_nonneg v.y, mul_self_nonneg v.z]
    have hy : v.y = 0 := by nlinarith [mul_self_nonneg v.x, mul_self_nonneg v.y, mul_self_nonneg v.z]
    have hz : v.z = 0 := by nlinarith [mul_self_nonneg v.x, mul_self_nonneg v.y, mul_self_nonneg v.z]
    cases v
    simp_all
  · intro h
    subst h
    norm_num

theorem Vec3.subbed_eq_zero_iff (v u : Vec3) : v.subbed u = ZeroVec ↔ v = u := by
  cases v
  cases u
  simp [Vec3.subbed, ZeroVec, sub_eq_zero]

/-- `ReLorentzFactor` is strictly positive strictly below the speed of light. -/
theorem ReLorentzFactor_pos {s : ℝ} (h0 : 0 ≤ s) (hc : s < Cc) :
    0 < ReLorentzFactor s := by
  unfold ReLorentzFactor
  split_ifs with h
  · norm_num
  · apply Real.sqrt_pos.mpr
    have h1 : s / Cc < 1 := (div_lt_one Cc_pos).mpr hc
    have h2 : 0 ≤ s / Cc := div_nonneg h0 Cc_pos.le
    nlinarith

/-! ## Claim theorems -/

/-- C1: `GravityField.FieldAt` returns the zero vector when the query point
equals the field position, the uniform-density interior formula
`G·m·(pos−p)/r³` (via the cached `1/r³`) when the squared displacement is
below the cached `r²`, and the inverse-square formula
`G·m·(pos−p)/|pos−p|³` otherwise. -/
theorem gravityField_fieldAt_cases (p : Vec3) (m r : ℝ) (q : Vec3) :
    (q = p → (NewGravityField p m r).FieldAt q = ZeroVec)
    ∧ (q ≠ p → (p.subbed q).sqLen < r * r →
        (NewGravityField p m r).FieldAt q
          = (p.subbed q).scaledN (Gg * m / r ^ 3))
    ∧ (q ≠ p → ¬ (p.subbed q).sqLen < r * r →
        (NewGravityField p m r).FieldAt q
          = (p.subbed q).scaledN (Gg * m / (p.subbed q).len ^ 3)) := by
  have hsub : (p.subbed q).sqLen = 0 ↔ p = q := by
    rw [Vec3.sqLen_eq_zero_iff, Vec3.subbed_eq_zero_iff]
  refine ⟨?_, ?_, ?_⟩
  · intro h
    subst h
    simp [GravityField.FieldAt, NewGravityField, Vec3.subbed, Vec3.sqLen, ZeroVec]
  · intro hne hlt
    have hnz : (p.subbed q).sqLen ≠ 0 := fun h => hne (hsub.mp h).symm
    have h3 : r * r * r = r ^ 3 := by ring
    simp only [GravityField.FieldAt, NewGravityField, if_neg hnz, if_pos hlt]
    rw [show Gg * m * (1 / (r * r * r)) = Gg * m / r ^ 3 by rw [← h3]; ring]
  · intro hne hge
    have hnz : (p.subbed q).sqLen ≠ 0 := fun h => hne (hsub.mp h).symm
    simp only [GravityField.FieldAt, NewGravityField, if_neg hnz, if_neg hge]
    congr 1
    rw [Vec3.len, show Real.sqrt (p.subbed q).sqLen ^ 3
        = Real.sqrt (p.subbed q).sqLen * Real.sqrt (p.subbed q).sqLen
          * Real.sqrt (p.subbed q).sqLen by ring,
      Real.mul_self_sqrt (Vec3.sqLen_nonneg _)]

/-- Witness for C1: a field of mass 1 and radius 2 at the origin, queried at
`(1,0,0)` (interior branch). -/
theorem gravityField_fieldAt_cases_witness :
    (NewGravityField ZeroVec 1 2).FieldAt ⟨1, 0, 0⟩
      = (ZeroVec.subbed ⟨1, 0, 0⟩).scaledN (Gg * 1 / 2 ^ 3) := by
  refine (gravityField_fieldAt_cases ZeroVec 1 2 ⟨1, 0, 0⟩).2.1 ?_ ?_
  · intro h
    have := congrArg Vec3.x h
    norm_num [ZeroVec] at this
  · norm_num [Vec3.subbed, Vec3.sqLen, ZeroVec]

/-- C2: with a configured cap `vmax² ≤ c²` the reciprocal Lorentz factor is
`√(1 − min(v², vmax²)/c²)` for `v² < c²`; with `maxSpeed = 0.5c` its value at
`v = 0.9c` equals its value at `v = 0.5c`; and for `v² ≥ c²` it is the
smallest positive representable number (in particular strictly positive,
never zero or negative). -/
theorem reLorentzFactorSq_spec (e : Engine) (hm : e.maxSpeedSq ≤ cSq) :
    (∀ v : ℝ, v * v < cSq →
        e.ReLorentzFactorSq (v * v) = Real.sqrt (1 - min (v * v) e.maxSpeedSq / cSq))
    ∧ ((NewEngine ⟨0, Cc / 2, 0⟩).ReLorentzFactorSq ((9 / 10 * Cc) * (9 / 10 * Cc))
        = (NewEngine ⟨0, Cc / 2, 0⟩).ReLorentzFactorSq ((Cc / 2) * (Cc / 2)))
    ∧ (∀ v : ℝ, cSq ≤ v * v →
        e.ReLorentzFactorSq (v * v) = smallestNonzeroFloat64
          ∧ 0 < smallestNonzeroFloat64) := by
  refine ⟨?_, ?_, ?_⟩
  · intro v hv
    rw [Engine.ReLorentzFactorSq, if_neg (not_le.mpr hv)]
  · have hmax : (NewEngine ⟨0, Cc / 2, 0⟩).maxSpeedSq = Cc / 2 * (Cc / 2) := by
      rw [NewEngine]
      norm_num [Cc, cSq]
    have h9 : ¬ cSq ≤ 9 / 10 * Cc * (9 / 10 * Cc) := by norm_num [Cc, cSq]
    have h5 : ¬ cSq ≤ Cc / 2 * (Cc / 2) := by norm_num [Cc, cSq]
    rw [Engine.ReLorentzFactorSq, Engine.ReLorentzFactorSq, if_neg h9, if_neg h5, hmax]
    congr 2
    · rw [min_eq_right (by norm_num [Cc]), min_eq_left le_rfl]
  · intro v hv
    exact ⟨by rw [Engine.ReLorentzFactorSq, if_pos hv], smallestNonzeroFloat64_pos⟩

/-- Witness for C2: the default engine (whose cap is clamped to `c²`),
evaluated at rest and at the speed of light. -/
theorem reLorentzFactorSq_spec_witness :
    (NewEngine ⟨0, 0, 0⟩).ReLorentzFactorSq (0 * 0)
      = Real.sqrt (1 - min (0 * 0) (NewEngine ⟨0, 0, 0⟩).maxSpeedSq / cSq)
    ∧ (NewEngine ⟨0, 0, 0⟩).ReLorentzFactorSq (Cc * Cc) = smallestNonzeroFloat64 := by
  have hm : (NewEngine ⟨0, 0, 0⟩).maxSpeedSq ≤ cSq := by
    rw [NewEngine]
    norm_num
  exact ⟨(reLorentzFactorSq_spec _ hm).1 0 (by simpa using cSq_pos),
    ((reLorentzFactorSq_spec _ hm).2.2 Cc (by rw [cSq])).1⟩

/-- C8 counterexample: `ProperTime(0, −1)` returns `0` — it neither panics
(although the speed is negative) nor is it floored to the smallest positive
value (the claim requires a strictly positive result). -/
theorem properTime_zero_counterexample :
    ProperTime 0 (-1) = some 0 ∧ ((-1 : ℝ) < 0)
      ∧ (0 : ℝ) ≠ smallestNonzeroFloat64 := by
  refine ⟨by simp [ProperTime], by norm_num, ne_of_lt smallestNonzeroFloat64_pos⟩

/-- C8 amended: `ProperTime(0, speed)` returns `0` for every speed (without
panicking); for `t ≠ 0` it panics exactly when `t < 0` or `speed < 0`; for
`t > 0` and `c ≤ speed` it returns the smallest positive value; for `t > 0`
and `0 ≤ speed < c` it returns `t·ReLorentzFactor(speed)`, which is strictly
positive. -/
theorem properTime_spec :
    (∀ s : ℝ, ProperTime 0 s = some 0)
    ∧ (∀ t s : ℝ, t ≠ 0 → (ProperTime t s = none ↔ t < 0 ∨ s < 0))
    ∧ (∀ t s : ℝ, 0 < t → 0 ≤ s → Cc ≤ s →
        ProperTime t s = some smallestNonzeroFloat64)
    ∧ (∀ t s : ℝ, 0 < t → 0 ≤ s → s < Cc →
        ProperTime t s = some (t * ReLorentzFactor s)
          ∧ 0 < t * ReLorentzFactor s) := by
  refine ⟨fun s => by simp [ProperTime], ?_, ?_, ?_⟩
  · intro t s ht
    unfold ProperTime
    rw [if_neg ht]
    by_cases h1 : t < 0
    · simp [h1]
    · rw [if_neg h1]
      by_cases h2 : s < 0
      · simp [h1, h2]
      · rw [if_neg h2]
        have hno : ¬ (t < 0 ∨ s < 0) := by tauto
        simp only [hno, iff_false]
        split_ifs <;> simp
  · intro t s ht hs hc
    unfold ProperTime
    rw [if_neg (ne_of_gt ht), if_neg (not_lt.mpr ht.le), if_neg (not_lt.mpr hs),
      if_pos hc]
  · intro t s ht hs hc
    have hpos : 0 < t * ReLorentzFactor s := mul_pos ht (ReLorentzFactor_pos hs hc)
    constructor
    · unfold ProperTime
      rw [if_neg (ne_of_gt ht), if_neg (not_lt.mpr ht.le), if_neg (not_lt.mpr hs),
        if_neg (not_le.mpr hc)]
      simp only [if_neg (ne_of_gt hpos)]
    · exact hpos

/-- Witness for C8 amended: evaluations at `(0, −1)`, `(−1, 0)`, `(1, c)`
and `(1, 0)`. -/
theorem properTime_spec_witness :
    ProperTime 0 (-1) = some 0
    ∧ (ProperTime (-1) 0 = none ↔ (-1 : ℝ) < 0 ∨ (0 : ℝ) < 0)
    ∧ ProperTime 1 Cc = some smallestNonzeroFloat64
    ∧ ProperTime 1 0 = some (1 * ReLorentzFactor 0) :=
  ⟨properTime_spec.1 (-1),
   properTime_spec.2.1 (-1) 0 (by norm_num),
   properTime_spec.2.2.1 1 Cc one_pos Cc_pos.le le_rfl,
   (properTime_spec.2.2.2 1 0 one_pos le_rfl Cc_pos).1⟩

/-- C10: `RotatedY(0)` swaps the X and Z components instead of being the
identity; `RotateY` and `RotatedY` compute the same map, whose 3×3
determinant is `−1` for every angle (an orientation-reversing map), while
`RotateX(0)` and `RotateZ(0)` are identities. -/
theorem rotatedY_orientation :
    (∀ v : Vec3, v.rotatedY 0 = ⟨v.z, v.y, v.x⟩)
    ∧ (∀ (v : Vec3) (a : ℝ), v.rotateY a = v.rotatedY a)
    ∧ (∀ a : ℝ, det3 (UnitX.rotatedY a) (UnitY.rotatedY a) (UnitZ.rotatedY a) = -1)
    ∧ (∀ v : Vec3, v.rotateX 0 = v)
    ∧ (∀ v : Vec3, v.rotateZ 0 = v) := by
  refine ⟨?_, fun v a => rfl, ?_, ?_, ?_⟩
  · intro v
    simp [Vec3.rotatedY]
  · intro a
    have h := Real.sin_sq_add_cos_sq a
    simp only [det3, Vec3.rotatedY, UnitX, UnitY, UnitZ]
    ring_nf
    nlinarith [h]
  · intro v
    obtain ⟨x, y, z⟩ := v
    simp [Vec3.rotateX]
  · intro v
    obtain ⟨x, y, z⟩ := v
    simp [Vec3.rotateZ]

set_option maxHeartbeats 2000000 in
/-- C9: for every pair of cubes and any scratch `area`, `OverlapBox` returns
`true` exactly when `Overlap` does, and edge-touching cubes (the
inequalities are inclusive) count as overlapping in both. -/
theorem overlapBox_iff_overlap :
    (∀ b x area : Cube, (Cube.OverlapBox b x area).1 = Cube.Overlap b x)
    ∧ Cube.Overlap ⟨⟨0, 0, 0⟩, ⟨1, 1, 1⟩⟩ ⟨⟨1, 0, 0⟩, ⟨1, 1, 1⟩⟩ = true
    ∧ (Cube.OverlapBox ⟨⟨0, 0, 0⟩, ⟨1, 1, 1⟩⟩ ⟨⟨1, 0, 0⟩, ⟨1, 1, 1⟩⟩
        ⟨⟨0, 0, 0⟩, ⟨0, 0, 0⟩⟩).1 = true := by
  have main : ∀ b x area : Cube, (Cube.OverlapBox b x area).1 = Cube.Overlap b x := by
    intro b x area
    unfold Cube.OverlapBox Cube.Overlap
    dsimp only
    split_ifs <;> dsimp only <;>
      first
        | (rw [eq_comm, decide_eq_true_eq]; tauto)
        | (rw [eq_comm, decide_eq_false_iff_not]; tauto)
  refine ⟨main, ?_, ?_⟩
  · unfold Cube.Overlap Cube.EndPos
    norm_num [Vec3.added, Vec3.subbed]
  · rw [main]
    unfold Cube.Overlap Cube.EndPos
    norm_num [Vec3.added, Vec3.subbed]

theorem runBeforeTick_fields (h : BeforeTickHook) (w : EventWave) :
    (runBeforeTick h w).2 = false
    ∧ (runBeforeTick h w).1.radius = w.radius
    ∧ (runBeforeTick h w).1.maxRadius = w.maxRadius
    ∧ (runBeforeTick h w).1.speed = w.speed
    ∧ (runBeforeTick h w).1.alive = w.alive
    ∧ (runBeforeTick h w).1.skipped = w.skipped
    ∧ (runBeforeTick h w).1.onBeforeTick = w.onBeforeTick
    ∧ (runBeforeTick h w).1.sender = w.sender
    ∧ (runBeforeTick h w).1.pos = w.pos := by
  cases h
  · simp [runBeforeTick]
  · unfold runBeforeTick gravityEventBeforeTick
    dsimp only
    split_ifs <;> simp

/-- Single-step invariant of `eventWaveTickMain`: the radius never shrinks,
stays within the cap, and `speed`, `maxRadius` and the hook are untouched. -/
theorem eventWaveTickMain_inv (f : EventWave) (dt : ℝ) (objs : List EngObj)
    (hsp : 0 ≤ f.speed) (hal : 0 ≤ f.alive) (hra : 0 ≤ f.radius)
    (hsk : 0 ≤ f.skipped) (hdt : 0 ≤ dt)
    (hbd : 0 ≤ f.maxRadius → f.radius ≤ f.maxRadius) :
    f.radius ≤ (eventWaveTickMain f dt objs).1.radius
    ∧ 0 ≤ (eventWaveTickMain f dt objs).1.radius
    ∧ 0 ≤ (eventWaveTickMain f dt objs).1.alive
    ∧ 0 ≤ (eventWaveTickMain f dt objs).1.skipped
    ∧ (eventWaveTickMain f dt objs).1.speed = f.speed
    ∧ (eventWaveTickMain f dt objs).1.maxRadius = f.maxRadius
    ∧ (eventWaveTickMain f dt objs).1.onBeforeTick = f.onBeforeTick
    ∧ (0 ≤ f.maxRadius → (eventWaveTickMain f dt objs).1.radius ≤ f.maxRadius) := by
  unfold eventWaveTickMain
  dsimp only
  set f1 : EventWave := { f with alive := if f.alive - dt < 0 then 0 else f.alive - dt } with hf1
  obtain ⟨hk2, hkr, hkm, hks, hka, hkk, hkh⟩ :
      (runBeforeTick f1.onBeforeTick f1).2 = false
      ∧ (runBeforeTick f1.onBeforeTick f1).1.radius = f1.radius
      ∧ (runBeforeTick f1.onBeforeTick f1).1.maxRadius = f1.maxRadius
      ∧ (runBeforeTick f1.onBeforeTick f1).1.speed = f1.speed
      ∧ (runBeforeTick f1.onBeforeTick f1).1.alive = f1.alive
      ∧ (runBeforeTick f1.onBeforeTick f1).1.skipped = f1.skipped
      ∧ (runBeforeTick f1.onBeforeTick f1).1.onBeforeTick = f1.onBeforeTick := by
    obtain ⟨a, b, c, d, e, g, h, _, _⟩ := runBeforeTick_fields f1.onBeforeTick f1
    exact ⟨a, b, c, d, e, g, h⟩
  rw [hk2]
  simp only [Bool.false_eq_true, if_false]
  set g := (runBeforeTick f1.onBeforeTick f1).1 with hg
  have hf1r : f1.radius = f.radius := rfl
  have hf1m : f1.maxRadius = f.maxRadius := rfl
  have hf1s : f1.speed = f.speed := rfl
  have hf1k : f1.skipped = f.skipped := rfl
  have hf1h : f1.onBeforeTick = f.onBeforeTick := rfl
  have hf1a : 0 ≤ f1.alive := by
    rw [hf1]
    dsimp only
    split_ifs with h
    · exact le_refl 0
    · linarith [not_lt.mp h]
  have hdtE0 : 0 ≤ (if f.alive - dt < 0 then dt + (f.alive - dt) else dt) := by
    split_ifs with h
    · linarith
    · exact hdt
  generalize hE : (if f.alive - dt < 0 then dt + (f.alive - dt) else dt) = dtE at hdtE0 ⊢
  have hrd : 0 ≤ g.speed * dtE := by
    apply mul_nonneg _ hdtE0
    rw [hks, hf1s]
    exact hsp
  split_ifs with hclamp
  · -- clamped at maxRadius
    have hmx : 0 ≤ g.maxRadius := by
      rcases hclamp with ⟨h1, _⟩
      exact h1
    have hmx' : 0 ≤ f.maxRadius := by
      rw [hkm, hf1m] at hmx
      exact hmx
    refine ⟨?_, ?_, le_refl 0, ?_, ?_, ?_, ?_, fun _ => ?_⟩
    · dsimp only
      rw [hkm, hf1m]
      exact hbd hmx'
    · dsimp only
      rw [hkm, hf1m]
      exact hmx'
    · dsimp only
      rw [hkk, hf1k]
      exact hsk
    · dsimp only
      rw [hks, hf1s]
    · dsimp only
      rw [hkm, hf1m]
    · dsimp only
      rw [hkh, hf1h]
    · dsimp only
      rw [hkm, hf1m]
  · -- not clamped
    refine ⟨?_, ?_, ?_, ?_, ?_, ?_, ?_, fun hm => ?_⟩
    · dsimp only
      rw [hkr, hf1r]
      linarith [hrd]
    · dsimp only
      rw [hkr, hf1r]
      linarith [hrd]
    · dsimp only
      rw [hka]
      exact hf1a
    · dsimp only
      rw [hkk, hf1k]
      exact hsk
    · dsimp only
      rw [hks, hf1s]
    · dsimp only
      rw [hkm, hf1m]
    · dsimp only
      rw [hkh, hf1h]
    · dsimp only
      rw [hkr, hf1r]
      by_contra hgt
      push_neg at hgt
      apply hclamp
      rw [hkm, hf1m]
      exact ⟨hm, by linarith⟩

/-- Single-step invariant of `eventWave.Tick`, including the delay path. -/
theorem eventWaveTick_inv (f : EventWave) (dt : ℝ) (objs : List EngObj)
    (hsp : 0 ≤ f.speed) (hal : 0 ≤ f.alive) (hra : 0 ≤ f.radius)
    (hsk : 0 ≤ f.skipped) (hdt : 0 ≤ dt)
    (hbd : 0 ≤ f.maxRadius → f.radius ≤ f.maxRadius) :
    f.radius ≤ (eventWaveTick f dt objs).1.radius
    ∧ 0 ≤ (eventWaveTick f dt objs).1.radius
    ∧ 0 ≤ (eventWaveTick f dt objs).1.alive
    ∧ 0 ≤ (eventWaveTick f dt objs).1.skipped
    ∧ (eventWaveTick f dt objs).1.speed = f.speed
    ∧ (eventWaveTick f dt objs).1.maxRadius = f.maxRadius
    ∧ (eventWaveTick f dt objs).1.onBeforeTick = f.onBeforeTick
    ∧ (0 ≤ f.maxRadius → (eventWaveTick f dt objs).1.radius ≤ f.maxRadius) := by
  unfold eventWaveTick
  dsimp only
  split_ifs with hdel htk
  · exact ⟨le_refl _, hra, hal, by dsimp only; linarith, rfl, rfl, rfl, hbd⟩
  · have h := eventWaveTickMain_inv
      { f with skipped := 0, tick := 0 } (f.skipped + dt) objs
      hsp hal hra (le_refl 0) (by linarith) hbd
    exact h
  · exact eventWaveTickMain_inv f dt objs hsp hal hra hsk hdt hbd

/-- Invariant of a whole sequence of `Tick` calls. -/
theorem eventWaveTicks_inv (seq : List (ℝ × List EngObj)) (w : EventWave)
    (hsp : 0 ≤ w.speed) (hal : 0 ≤ w.alive) (hra : 0 ≤ w.radius)
    (hsk : 0 ≤ w.skipped)
    (hbd : 0 ≤ w.maxRadius → w.radius ≤ w.maxRadius)
    (hdts : ∀ p ∈ seq, 0 ≤ p.1) :
    w.radius ≤ (eventWaveTicks w seq).radius
    ∧ (0 ≤ w.maxRadius → (eventWaveTicks w seq).radius ≤ w.maxRadius) := by
  induction seq generalizing w with
  | nil => exact ⟨le_refl _, fun _ => hbd ‹_›⟩
  | cons p rest ih =>
    have hp : 0 ≤ p.1 := hdts p (List.mem_cons_self p rest)
    obtain ⟨h1, h2, h3, h4, h5, h6, _h7, h8⟩ :=
      eventWaveTick_inv w p.1 p.2 hsp hal hra hsk hp hbd
    have hrest := ih ((eventWaveTick w p.1 p.2).1)
      (h5 ▸ hsp) h3 h2 h4
      (fun hm => by rw [h6]; exact h8 (h6 ▸ hm))
      (fun q hq => hdts q (List.mem_cons_of_mem p hq))
    have hfold : eventWaveTicks w (p :: rest)
        = eventWaveTicks ((eventWaveTick w p.1 p.2).1) rest := rfl
    rw [hfold]
    refine ⟨le_trans h1 hrest.1, fun hm => ?_⟩
    have := hrest.2 (h6 ▸ hm)
    rw [h6] at this
    exact this

/-- C5: over any sequence of `Tick` calls with nonnegative `dt`s, a wave with
nonnegative speed (and well-formed nonnegative `alive`/`radius`/`skipped`
state, as established by `newEventWave`) has a monotonically non-decreasing
radius, and the radius never exceeds `maxRadius` whenever `maxRadius ≥ 0`. -/
theorem eventWave_radius_monotone (w : EventWave) (seq : List (ℝ × List EngObj))
    (hsp : 0 ≤ w.speed) (hal : 0 ≤ w.alive) (hra : 0 ≤ w.radius)
    (hsk : 0 ≤ w.skipped)
    (hbd : 0 ≤ w.maxRadius → w.radius ≤ w.maxRadius)
    (hdts : ∀ p ∈ seq, 0 ≤ p.1) :
    w.radius ≤ (eventWaveTicks w seq).radius
    ∧ (0 ≤ w.maxRadius → (eventWaveTicks w seq).radius ≤ w.maxRadius) :=
  eventWaveTicks_inv seq w hsp hal hra hsk hbd hdts

/-- Witness for C5: a fresh wave of cap 5 ticked twice with `dt = 1`. -/
theorem eventWave_radius_monotone_witness :
    (newEventWave 0 ZeroVec 5 false).radius
      ≤ (eventWaveTicks (newEventWave 0 ZeroVec 5 false) [(1, []), (1, [])]).radius
    ∧ (0 ≤ (newEventWave 0 ZeroVec 5 false).maxRadius →
        (eventWaveTicks (newEventWave 0 ZeroVec 5 false) [(1, []), (1, [])]).radius
          ≤ (newEventWave 0 ZeroVec 5 false).maxRadius) :=
  eventWave_radius_monotone (newEventWave 0 ZeroVec 5 false) [(1, []), (1, [])]
    (by norm_num [newEventWave, Cc])
    (by norm_num [newEventWave])
    (by norm_num [newEventWave])
    (by norm_num [newEventWave])
    (by norm_num [newEventWave])
    (by intro p hp; fin_cases hp <;> norm_num)

theorem le_sqrt_iff_mul_self {a l : ℝ} (ha : 0 ≤ a) (hl : 0 ≤ l) :
    a ≤ Real.sqrt l ↔ a * a ≤ l := by
  constructor
  · intro h
    have := mul_self_le_mul_self ha h
    rwa [Real.mul_self_sqrt hl] at this
  · intro h
    have := Real.sqrt_le_sqrt h
    rwa [Real.sqrt_mul_self ha] at this

theorem sqrt_le_iff_mul_self {l b : ℝ} (hb : 0 ≤ b) (hl : 0 ≤ l) :
    Real.sqrt l ≤ b ↔ l ≤ b * b := by
  constructor
  · intro h
    have := mul_self_le_mul_self (Real.sqrt_nonneg l) h
    rwa [Real.mul_self_sqrt hl] at this
  · intro h
    have := Real.sqrt_le_sqrt h
    rwa [Real.sqrt_mul_self hb] at this

/-- The square-based ring query, restricted away from the sender, selects
exactly the objects whose absolute distance lies in `[minR, U]`. -/
theorem ringFilter_eq (objs : List EngObj) (pos : Vec3) (sender : Nat)
    (minR U : ℝ) (hminR : 0 ≤ minR) (hU : 0 ≤ U) :
    (appendObjsInsideRing [] objs pos minR U).filter
        (fun o => decide (o.id ≠ sender))
      = objs.filter (fun o => decide (o.id ≠ sender
          ∧ minR ≤ (o.absPos.subbed pos).len
          ∧ (o.absPos.subbed pos).len ≤ U)) := by
  unfold appendObjsInsideRing
  dsimp only
  rw [List.nil_append, List.filter_filter]
  apply List.filter_congr
  intro o _
  have hl : 0 ≤ (o.absPos.subbed pos).sqLen := Vec3.sqLen_nonneg _
  have h1 : minR * minR ≤ (o.absPos.subbed pos).sqLen
      ↔ minR ≤ (o.absPos.subbed pos).len := by
    rw [Vec3.len]
    exact (le_sqrt_iff_mul_self hminR hl).symm
  have h2 : (o.absPos.subbed pos).sqLen ≤ U * U
      ↔ (o.absPos.subbed pos).len ≤ U := by
    rw [Vec3.len]
    exact (sqrt_le_iff_mul_self hU hl).symm
  rw [← Bool.decide_and]
  exact decide_eq_decide.mpr (by tauto)

set_option maxHeartbeats 1000000 in
/-- C3 amended: on one non-delayed `Tick(dt)` of a plain event wave (no
pre-tick hook) with `dt ≤ alive` and a nonnegative state, writing `last` for
the radius before the call, the radius becomes
`min(last + speed·dt, maxRadius)`, and the effect `on(receiver)` is invoked
exactly on the objects other than the sender whose absolute distance `d`
from the wave's start position satisfies
`last ≤ d ≤ radius' + speed·dt/2`.  The overshoot is half the *raw* growth
`speed·dt`; it coincides with the claim's `(radius'−last)/2` only when the
cap did not clip the step (see the counterexample for the clipped case). -/
theorem eventWaveTick_annulus (f : EventWave) (dt : ℝ) (objs : List EngObj)
    (hdel : f.delay ≤ 0) (hhook : f.onBeforeTick = .noHook)
    (hda : dt ≤ f.alive) (hdt : 0 ≤ dt) (hsp : 0 ≤ f.speed)
    (hra : 0 ≤ f.radius) (hmx : 0 ≤ f.maxRadius) :
    (eventWaveTick f dt objs).1.radius
      = min (f.radius + f.speed * dt) f.maxRadius
    ∧ (eventWaveTick f dt objs).2
        = objs.filter (fun o => decide (o.id ≠ f.sender
            ∧ f.radius ≤ (o.absPos.subbed f.pos).len
            ∧ (o.absPos.subbed f.pos).len
                ≤ min (f.radius + f.speed * dt) f.maxRadius
                  + f.speed * dt / 2)) := by
  have hnd : ¬ (f.delay > 0) := not_lt.mpr hdel
  have hncl : ¬ (f.alive - dt < 0) := not_lt.mpr (by linarith)
  have hrd : 0 ≤ f.speed * dt := mul_nonneg hsp hdt
  unfold eventWaveTick
  dsimp only
  rw [if_neg hnd]
  unfold eventWaveTickMain
  dsimp only
  rw [hhook]
  unfold runBeforeTick
  dsimp only
  simp only [if_neg hncl, Bool.false_eq_true, if_false]
  by_cases hcl : f.radius + f.speed * dt ≥ f.maxRadius
  · rw [if_pos ⟨hmx, hcl⟩]
    dsimp only
    rw [min_eq_right hcl]
    refine ⟨rfl, ?_⟩
    exact ringFilter_eq objs f.pos f.sender f.radius
      (f.maxRadius + f.speed * dt / 2) hra (by positivity)
  · rw [if_neg (fun hc => hcl hc.2)]
    dsimp only
    rw [min_eq_left (le_of_lt (not_le.mp hcl))]
    refine ⟨rfl, ?_⟩
    exact ringFilter_eq objs f.pos f.sender f.radius
      (f.radius + f.speed * dt + f.speed * dt / 2) hra (by positivity)

/-- Witness for C3 amended: an unclipped tick of a fresh wave with one
receiver at distance 9/10. -/
theorem eventWaveTick_annulus_witness :
    (eventWaveTick waveFree 1 [recvA]).1.radius
      = min (waveFree.radius + waveFree.speed * 1) waveFree.maxRadius
    ∧ (eventWaveTick waveFree 1 [recvA]).2
        = [recvA].filter (fun o => decide (o.id ≠ waveFree.sender
            ∧ waveFree.radius ≤ (o.absPos.subbed waveFree.pos).len
            ∧ (o.absPos.subbed waveFree.pos).len
                ≤ min (waveFree.radius + waveFree.speed * 1) waveFree.maxRadius
                  + waveFree.speed * 1 / 2)) :=
  eventWaveTick_annulus waveFree 1 [recvA]
    (by norm_num [waveFree]) rfl (by norm_num [waveFree]) (by norm_num)
    (by norm_num [waveFree]) (by norm_num [waveFree]) (by norm_num [waveFree])

/-- C3 counterexample: a wave with speed 1, radius 0 and cap 1/2, ticked
with `dt = 1`.  The radius is clipped to 1/2, but the receiver at distance
9/10 is still invoked although the claim's annulus
`[last, radius + (radius−last)/2] = [0, 3/4]` excludes it. -/
theorem eventWaveTick_overshoot_counterexample :
    (eventWaveTick waveClip 1 [recvA]).1.radius = 1 / 2
    ∧ (eventWaveTick waveClip 1 [recvA]).2 = [recvA]
    ∧ (recvA.absPos.subbed waveClip.pos).len = 9 / 10
    ∧ ¬ ((recvA.absPos.subbed waveClip.pos).len
          ≤ (eventWaveTick waveClip 1 [recvA]).1.radius
            + ((eventWaveTick waveClip 1 [recvA]).1.radius - waveClip.radius) / 2) := by
  have hlen : (recvA.absPos.subbed waveClip.pos).len = 9 / 10 := by
    have h : (recvA.absPos.subbed waveClip.pos).sqLen = (9 / 10 : ℝ) * (9 / 10) := by
      norm_num [recvA, waveClip, Vec3.subbed, Vec3.sqLen, ZeroVec]
    rw [Vec3.len, h, Real.sqrt_mul_self (by norm_num : (0 : ℝ) ≤ 9 / 10)]
  have hev : eventWaveTick waveClip 1 [recvA]
      = ({ waveClip with alive := 0, radius := 1 / 2 }, [recvA]) := by
    unfold eventWaveTick eventWaveTickMain runBeforeTick appendObjsInsideRing
    norm_num [waveClip, recvA, Vec3.subbed, Vec3.sqLen, ZeroVec, List.filter]
  refine ⟨by rw [hev], by rw [hev], hlen, ?_⟩
  rw [hev, hlen]
  norm_num [waveClip]

theorem gravityWaveLifeAux_succ (t fuel i life : Nat) :
    gravityWaveLifeAux t (fuel + 1) i life
      = if i ≠ 0 ∧ t &&& (i - 1) = 0 then
          gravityWaveLifeAux t fuel ((i <<< 2) % 65536) (life + 1)
        else life := rfl

/-- The `life` loop unrolled: it tests the masks `1, 7, 31, …, 32767` in
order and stops at the first failure (at most eight passes). -/
theorem gravityWaveLife_unfold (t : Nat) :
    gravityWaveLife t =
      if t &&& 1 = 0 then
        if t &&& 7 = 0 then
          if t &&& 31 = 0 then
            if t &&& 127 = 0 then
              if t &&& 511 = 0 then
                if t &&& 2047 = 0 then
                  if t &&& 8191 = 0 then
                    if t &&& 32767 = 0 then 8 else 7
                  else 6
                else 5
              else 4
            else 3
          else 2
        else 1
      else 0 := by
  have s1 : (2 : ℕ) <<< 2 % 65536 = 8 := rfl
  have s2 : (8 : ℕ) <<< 2 % 65536 = 32 := rfl
  have s3 : (32 : ℕ) <<< 2 % 65536 = 128 := rfl
  have s4 : (128 : ℕ) <<< 2 % 65536 = 512 := rfl
  have s5 : (512 : ℕ) <<< 2 % 65536 = 2048 := rfl
  have s6 : (2048 : ℕ) <<< 2 % 65536 = 8192 := rfl
  have s7 : (8192 : ℕ) <<< 2 % 65536 = 32768 := rfl
  have s8 : (32768 : ℕ) <<< 2 % 65536 = 0 := rfl
  unfold gravityWaveLife
  rw [gravityWaveLifeAux_succ, s1, gravityWaveLifeAux_succ, s2,
    gravityWaveLifeAux_succ, s3, gravityWaveLifeAux_succ, s4,
    gravityWaveLifeAux_succ, s5, gravityWaveLifeAux_succ, s6,
    gravityWaveLifeAux_succ, s7, gravityWaveLifeAux_succ, s8,
    gravityWaveLifeAux_succ]
  norm_num

/-- The loop value as a count: `life` is the number of `k < 8` for which the
low `2k+1` bits of the emission tick are all zero. -/
theorem gravityWaveLife_eq_countP (t : Nat) :
    gravityWaveLife t
      = (List.range 8).countP (fun k => decide (t % 2 ^ (2 * k + 1) = 0)) := by
  have hmask : ∀ n : Nat, t &&& (2 ^ n - 1) = t % 2 ^ n := fun n =>
    Nat.and_pow_two_sub_one_eq_mod t n
  have m1 : t &&& 1 = t % 2 := by simpa using hmask 1
  have m3 : t &&& 7 = t % 8 := by simpa using hmask 3
  have m5 : t &&& 31 = t % 32 := by simpa using hmask 5
  have m7 : t &&& 127 = t % 128 := by simpa using hmask 7
  have m9 : t &&& 511 = t % 512 := by simpa using hmask 9
  have m11 : t &&& 2047 = t % 2048 := by simpa using hmask 11
  have m13 : t &&& 8191 = t % 8192 := by simpa using hmask 13
  have m15 : t &&& 32767 = t % 32768 := by simpa using hmask 15
  have hdvd : ∀ a b : Nat, 0 < a → a ∣ b → t % b = 0 → t % a = 0 := by
    intro a b _ hab hb
    exact Nat.mod_eq_zero_of_dvd (dvd_trans hab (Nat.dvd_of_mod_eq_zero hb))
  rw [gravityWaveLife_unfold, m1, m3, m5, m7, m9, m11, m13, m15]
  have hrange : List.range 8 = [0, 1, 2, 3, 4, 5, 6, 7] := rfl
  rw [hrange]
  simp only [List.countP_cons, List.countP_nil]
  norm_num
  by_cases h0 : t % 2 = 0
  · by_cases h1 : t % 8 = 0
    · by_cases h2 : t % 32 = 0
      · by_cases h3 : t % 128 = 0
        · by_cases h4 : t % 512 = 0
          · by_cases h5 : t % 2048 = 0
            · by_cases h6 : t % 8192 = 0
              · by_cases h7 : t % 32768 = 0
                · simp [h0, h1, h2, h3, h4, h5, h6, h7]
                · simp [h0, h1, h2, h3, h4, h5, h6, h7]
              · have n7 : ¬ t % 32768 = 0 := fun h => h6 (hdvd _ _ (by norm_num) (by norm_num) h)
                simp [h0, h1, h2, h3, h4, h5, h6, n7]
            · have n6 : ¬ t % 8192 = 0 := fun h => h5 (hdvd _ _ (by norm_num) (by norm_num) h)
              have n7 : ¬ t % 32768 = 0 := fun h => h5 (hdvd _ _ (by norm_num) (by norm_num) h)
              simp [h0, h1, h2, h3, h4, h5, n6, n7]
          · have n5 : ¬ t % 2048 = 0 := fun h => h4 (hdvd _ _ (by norm_num) (by norm_num) h)
            have n6 : ¬ t % 8192 = 0 := fun h => h4 (hdvd _ _ (by norm_num) (by norm_num) h)
            have n7 : ¬ t % 32768 = 0 := fun h => h4 (hdvd _ _ (by norm_num) (by norm_num) h)
            simp [h0, h1, h2, h3, h4, n5, n6, n7]
        · have n4 : ¬ t % 512 = 0 := fun h => h3 (hdvd _ _ (by norm_num) (by norm_num) h)
          have n5 : ¬ t % 2048 = 0 := fun h => h3 (hdvd _ _ (by norm_num) (by norm_num) h)
          have n6 : ¬ t % 8192 = 0 := fun h => h3 (hdvd _ _ (by norm_num) (by norm_num) h)
          have n7 : ¬ t % 32768 = 0 := fun h => h3 (hdvd _ _ (by norm_num) (by norm_num) h)
          simp [h0, h1, h2, h3, n4, n5, n6, n7]
      · have n3 : ¬ t % 128 = 0 := fun h => h2 (hdvd _ _ (by norm_num) (by norm_num) h)
        have n4 : ¬ t % 512 = 0 := fun h => h2 (hdvd _ _ (by norm_num) (by norm_num) h)
        have n5 : ¬ t % 2048 = 0 := fun h => h2 (hdvd _ _ (by norm_num) (by norm_num) h)
        have n6 : ¬ t % 8192 = 0 := fun h => h2 (hdvd _ _ (by norm_num) (by norm_num) h)
        have n7 : ¬ t % 32768 = 0 := fun h => h2 (hdvd _ _ (by norm_num) (by norm_num) h)
        simp [h0, h1, h2, n3, n4, n5, n6, n7]
    · have n2 : ¬ t % 32 = 0 := fun h => h1 (hdvd _ _ (by norm_num) (by norm_num) h)
      have n3 : ¬ t % 128 = 0 := fun h => h1 (hdvd _ _ (by norm_num) (by norm_num) h)
      have n4 : ¬ t % 512 = 0 := fun h => h1 (hdvd _ _ (by norm_num) (by norm_num) h)
      have n5 : ¬ t % 2048 = 0 := fun h => h1 (hdvd _ _ (by norm_num) (by norm_num) h)
      have n6 : ¬ t % 8192 = 0 := fun h => h1 (hdvd _ _ (by norm_num) (by norm_num) h)
      have n7 : ¬ t % 32768 = 0 := fun h => h1 (hdvd _ _ (by norm_num) (by norm_num) h)
      simp [h0, h1, n2, n3, n4, n5, n6, n7]
  · have n1 : ¬ t % 8 = 0 := fun h => h0 (hdvd _ _ (by norm_num) (by norm_num) h)
    have n2 : ¬ t % 32 = 0 := fun h => h0 (hdvd _ _ (by norm_num) (by norm_num) h)
    have n3 : ¬ t % 128 = 0 := fun h => h0 (hdvd _ _ (by norm_num) (by norm_num) h)
    have n4 : ¬ t % 512 = 0 := fun h => h0 (hdvd _ _ (by norm_num) (by norm_num) h)
    have n5 : ¬ t % 2048 = 0 := fun h => h0 (hdvd _ _ (by norm_num) (by norm_num) h)
    have n6 : ¬ t % 8192 = 0 := fun h => h0 (hdvd _ _ (by norm_num) (by norm_num) h)
    have n7 : ¬ t % 32768 = 0 := fun h => h0 (hdvd _ _ (by norm_num) (by norm_num) h)
    simp [h0, n1, n2, n3, n4, n5, n6, n7]

/-- C4 amended: with `minAccel > 0` the gravity wave's `maxRadius` is
`√(G·mass/minAccel)`, reduced to `min(·, maxRs[life])` whenever `life < 8`,
where `life` is the number of `k < 8` such that the low `2k+1` bits of the
emitter tick counter are all zero — that is, `⌈ntz₂(t)/2⌉` capped at 8, not
the claim's `⌊ntz₂(t)/2⌋`. -/
theorem newGravityWave_maxRadius (e : Engine) (sender : Nat) (center : Vec3)
    (f : GravityField) (t : Nat) (ha : 0 < e.cfg.MinAccel) :
    ((e.newGravityWave sender center f t).1.maxRadius =
      if gravityWaveLife t < 8 then
        min (Real.sqrt (Gg * f.mass / e.cfg.MinAccel)) (maxR (gravityWaveLife t))
      else Real.sqrt (Gg * f.mass / e.cfg.MinAccel))
    ∧ gravityWaveLife t
        = (List.range 8).countP (fun k => decide (t % 2 ^ (2 * k + 1) = 0)) := by
  refine ⟨?_, gravityWaveLife_eq_countP t⟩
  unfold Engine.newGravityWave newEventWave
  dsimp only
  rw [if_pos ha]
  have harg : Gg / e.cfg.MinAccel * f.mass = Gg * f.mass / e.cfg.MinAccel := by
    ring
  rw [harg]
  by_cases hl : gravityWaveLife t < 8
  · rw [if_pos hl, if_pos hl]
    by_cases hc : maxR (gravityWaveLife t) < Real.sqrt (Gg * f.mass / e.cfg.MinAccel)
    · rw [if_pos hc, min_eq_right (le_of_lt hc)]
    · rw [if_neg hc, min_eq_left (not_lt.mp hc)]
  · rw [if_neg hl, if_neg hl]

/-- Witness for C4 amended: engine with `minAccel = 1`, a massless field,
emission tick 4. -/
theorem newGravityWave_maxRadius_witness :
    (((NewEngine ⟨0, 0, 1⟩).newGravityWave 0 ZeroVec
        (NewGravityField ZeroVec 0 0) 4).1.maxRadius =
      if gravityWaveLife 4 < 8 then
        min (Real.sqrt (Gg * (NewGravityField ZeroVec 0 0).mass
              / (NewEngine ⟨0, 0, 1⟩).cfg.MinAccel))
          (maxR (gravityWaveLife 4))
      else Real.sqrt (Gg * (NewGravityField ZeroVec 0 0).mass
              / (NewEngine ⟨0, 0, 1⟩).cfg.MinAccel))
    ∧ gravityWaveLife 4
        = (List.range 8).countP (fun k => decide (4 % 2 ^ (2 * k + 1) = 0)) :=
  newGravityWave_maxRadius (NewEngine ⟨0, 0, 1⟩) 0 ZeroVec
    (NewGravityField ZeroVec 0 0) 4 (by norm_num [NewEngine])

/-- C4 counterexample: at emission tick `t = 2` (one trailing zero bit) the
claim's `life = ⌊ntz₂(2)/2⌋ = 0` predicts the cap `maxR₀ = c/100`, but the
code computes `life = 1` and caps at `maxR₁ = 4·(c/100)`: with
`minAccel = G` and mass `c²` the wave's `maxRadius` is `4·(c/100)`, not the
predicted `min(√(G·c²/G), 1·(c/100)) = c/100`. -/
theorem newGravityWave_life_counterexample :
    (((NewEngine ⟨0, 0, Gg⟩).newGravityWave 0 ZeroVec
        (NewGravityField ZeroVec (Cc * Cc) 1) 2).1.maxRadius = 4 * (Cc / 100))
    ∧ ntz16 2 / 2 = 0
    ∧ ((4 * (Cc / 100) : ℝ)
        ≠ min (Real.sqrt (Gg * (NewGravityField ZeroVec (Cc * Cc) 1).mass
              / (NewEngine ⟨0, 0, Gg⟩).cfg.MinAccel))
            (((1 <<< (2 * (ntz16 2 / 2)) : ℕ) : ℝ) * (Cc / 100))) := by
  have hGg : (Gg : ℝ) ≠ 0 := by norm_num [Gg]
  have hmina : (NewEngine ⟨0, 0, Gg⟩).cfg.MinAccel = Gg := by
    rw [NewEngine]
    norm_num [Gg]
  have hsq : Real.sqrt (Gg / Gg * (Cc * Cc)) = Cc := by
    rw [div_self hGg, one_mul, Real.sqrt_mul_self Cc_pos.le]
  have hsq2 : Real.sqrt (Gg * (Cc * Cc) / Gg) = Cc := by
    rw [mul_div_cancel_left₀ _ hGg, Real.sqrt_mul_self Cc_pos.le]
  have hlife : gravityWaveLife 2 = 1 := by decide
  have hmaxR1 : maxR 1 = 4 * (Cc / 100) := by
    unfold maxR
    rw [show (1 <<< (2 * 1) : ℕ) = 4 from rfl]
    norm_num
  refine ⟨?_, by decide, ?_⟩
  · unfold Engine.newGravityWave newEventWave NewGravityField
    dsimp only
    rw [hmina, if_pos (by norm_num [Gg] : (0 : ℝ) < Gg), hlife, hsq]
    rw [if_pos (by norm_num : (1 : ℕ) < 8), hmaxR1,
      if_pos (by norm_num [Cc] : 4 * (Cc / 100) < Cc)]
  · rw [hmina]
    dsimp only [NewGravityField]
    rw [hsq2, show (ntz16 2 / 2 : ℕ) = 0 by decide]
    rw [min_eq_right (by norm_num [Cc])]
    norm_num [Cc]

/-- The `AttachTo(smallestO)` branch of `Object.tick` is unreachable:
`smallestL` starts at `0` and squared lengths are nonnegative, so the loop
never records a candidate. -/
theorem gravityLoop_smallestO_none (e : Engine) (v pos : Vec3) (factor : ℝ)
    (entries : List GravEntry) :
    ∀ st : GravLoopSt, st.smallestL = 0 → st.smallestO = none →
      (entries.foldl (gravStep e v pos factor) st).smallestL = 0
      ∧ (entries.foldl (gravStep e v pos factor) st).smallestO = none := by
  induction entries with
  | nil => exact fun st h1 h2 => ⟨h1, h2⟩
  | cons ent rest ih =>
    intro st h1 h2
    rw [List.foldl_cons]
    apply ih
    · unfold gravStep
      dsimp only
      rw [h1, if_neg (not_lt.mpr (Vec3.sqLen_nonneg _))]
      split_ifs <;> exact h1
    · unfold gravStep
      dsimp only
      rw [h1, if_neg (not_lt.mpr (Vec3.sqLen_nonneg _))]
      split_ifs <;> exact h2

theorem blockFold_fst (bs : List Block) :
    ∀ s : ℝ × Vec3,
      (bs.foldl blockStep s).1 = bs.foldl (fun m b => m + b.mass) s.1 := by
  induction bs with
  | nil => exact fun s => rfl
  | cons b rest ih =>
    intro s
    rw [List.foldl_cons, List.foldl_cons, ih]
    rfl

/-- C7 amended: after `Object.tick` the mass recorded in the next-status is
the raw sum of the block masses, even when that sum is negative; the clamp
to zero affects only the local variable used afterwards, not the stored
value. -/
theorem tick_next_mass (o : Obj) (dt : ℝ) :
    ((o.tick dt).1).next.mass
      = o.cur.blocks.foldl (fun m b => m + b.mass) 0 := by
  have hb := blockFold_fst o.cur.blocks (0, ZeroVec)
  rw [← hb]
  unfold Obj.tick
  dsimp only
  split <;> (try dsimp only) <;> (try split_ifs) <;> rfl

/-- C7 counterexample: an object whose blocks sum to mass `−1` records
`−1` (not zero) in its next-status after a tick. -/
theorem tick_negMass_counterexample :
    ((objNegMass.tick 1).1).next.mass = -1 ∧ ((-1 : ℝ) ≠ 0) := by
  constructor
  · have h : ((objNegMass.tick 1).1).next.mass
        = (objNegMass.cur.blocks.foldl blockStep (0, ZeroVec)).1 := rfl
    rw [h, blockFold_fst]
    norm_num [objNegMass, objStatus.zero]
  · norm_num

/-- C6: in `Object.tick` the displacement for the tick is the trapezoid rule
`(v_current + v_next)/2 · apt` — `v_current` the current-status velocity,
`v_next` the updated next-status velocity, `apt` the anchor proper time —
and it is committed to the next-status position exactly when its squared
length exceeds `minSpeed²`, the position staying unchanged otherwise. -/
theorem tick_trapezoid_position (o : Obj) (dt : ℝ) :
    ((o.tick dt).1).next.pos
      = (if ((o.cur.velocity.added ((o.tick dt).1).next.velocity).scaledN
              (o.anchorProperTime dt / 2)).sqLen > o.e.minSpeedSq
         then o.next.pos.added
            ((o.cur.velocity.added ((o.tick dt).1).next.velocity).scaledN
              (o.anchorProperTime dt / 2))
         else o.next.pos) := by
  unfold Obj.tick
  dsimp only
  split <;> (try dsimp only) <;> (try split_ifs) <;> rfl

end Molecular
